import Mathlib

/-!
# Verification of the RFS (Recruitment Fit Score) scoring pipeline

Shallow embedding of the scoring and classification pipeline of
`src/app.py` (v3 "Adaptive") and, where a claim cites it, also of
`src/apptest.py` (v3.1 "Optimized").

Python strings are modelled as `String` / `List Char`; missing values
(pandas `NaN` / `None` / an unmapped column) are modelled as `none` of an
`Option` type.  Numeric scores are modelled as exact rationals `ℚ`
(Python floats such as `0.6` become `6/10`).  The SHA-256 digest used by
`hash_id` is abstracted as a parameter `sha256hex : String → String`;
every other function is translated concretely from the source.
-/

namespace RFS

/-! ## Text helpers (Python `str` methods, modelled on `List Char`) -/

/-- Python `str.lower()` restricted to ASCII case folding (`Char.toLower`). -/
def toLowerL (l : List Char) : List Char := l.map Char.toLower

/-- Python `str.strip()`: drop leading and trailing whitespace. -/
def strip (l : List Char) : List Char :=
  ((l.dropWhile Char.isWhitespace).reverse.dropWhile Char.isWhitespace).reverse

/-- Split on runs of whitespace, discarding empty pieces: Python `str.split()`. -/
def splitWords : List Char → List (List Char)
  | [] => []
  | c :: rest =>
    if c.isWhitespace then splitWords rest
    else
      match splitWords rest with
      | [] => [[c]]
      | w :: ws =>
        match rest with
        | [] => [[c]]
        | d :: _ => if d.isWhitespace then [c] :: w :: ws else (c :: w) :: ws

/-- Number of whitespace-separated words: Python `len(s.split())`. -/
def wordCount (l : List Char) : Nat := (splitWords l).length

/-- `startsWithL p l` : Python `l.startswith(p)` on char lists. -/
def startsWithL : List Char → List Char → Bool
  | [], _ => true
  | _ :: _, [] => false
  | p :: ps, c :: cs => p == c && startsWithL ps cs

/-- `containsSub n h` : Python `n in h` (substring containment). -/
def containsSub (needle : List Char) : List Char → Bool
  | [] => startsWithL needle []
  | c :: rest => startsWithL needle (c :: rest) || containsSub needle rest

/-- `k in x` for each keyword of a list: Python `any(k in x for k in ks)`. -/
def anyKeyword (ks : List String) (x : List Char) : Bool :=
  ks.any (fun k => containsSub k.toList x)

/-- Word characters of the regex class `\w` (ASCII). -/
def isWordChar (c : Char) : Bool := c.isAlphanum || c == '_'

/-- Maximal runs of word characters in a char list. -/
def wordRuns : List Char → List (List Char)
  | [] => []
  | c :: rest =>
    if ¬ isWordChar c then wordRuns rest
    else
      match wordRuns rest with
      | [] => [[c]]
      | w :: ws =>
        match rest with
        | [] => [[c]]
        | d :: _ => if ¬ isWordChar d then [c] :: w :: ws else (c :: w) :: ws

/-- Python `bool(re.search(r"\b\d+\b", t))`: some maximal word-character run
consists entirely of digits. -/
def hasNumbersRe (t : List Char) : Bool :=
  (wordRuns t).any (fun r => !r.isEmpty && r.all Char.isDigit)

/-! ## `org_to_sector` (src/app.py lines 257-269; identical in apptest.py) -/

/-- `org_to_sector(org_text)`: first-match keyword classification of the
organisation free text into a sector label.  `none` models a non-string
(pandas `NaN`) input. -/
def org_to_sector (org_text : Option String) : String :=
  match org_text with
  | none => "Other/Unclassified"
  | some s =>
    if strip s.toList = [] then "Other/Unclassified"
    else
      let x := toLowerL s.toList
      if anyKeyword ["universit", "school", "educat"] x then "Education"
      else if anyKeyword ["ngo", "foundation", "association", "civil", "non profit", "non-profit"] x then "NGO/CSO"
      else if anyKeyword ["ministry", "gov", "municipal", "department of", "bureau"] x then "Government"
      else if anyKeyword ["united nations", "world bank", "fao", "ifad", "ifpri", "undp", "unesco"] x then "Multilateral"
      else if anyKeyword ["ltd", "company", "bv", "inc", "plc", "gmbh", "sarl"] x then "Private"
      else if anyKeyword ["farmer", "coop", "co-op", "cooperative"] x then "Farmer Org"
      else if anyKeyword ["consult"] x then "Consultancy"
      else if anyKeyword ["bank", "finance", "microfinance"] x then "Finance"
      else "Other/Unclassified"

/-- The closed sector enumeration of the spec (§3, "Sector"). -/
def sectorEnum : List String :=
  ["Education", "NGO/CSO", "Government", "Multilateral", "Private",
   "Farmer Org", "Consultancy", "Finance", "Other/Unclassified"]

/-- Structured-sector resolution (src/app.py lines 636-641).  The outer
`Option` is whether a sector column is mapped at all; the inner `Option`
is the cell value (`none` = pandas `NaN`, which `fillna` replaces).
When no sector column is mapped, the organisation text column (again
optional) is classified by `org_to_sector`. -/
def resolveSector (sectorCell : Option (Option String))
    (orgCell : Option (Option String)) : String :=
  match sectorCell with
  | some cell => cell.getD "Other/Unclassified"
  | none =>
    match orgCell with
    | some cell => org_to_sector cell
    | none => "Other/Unclassified"

/-! ## `label_band` (src/app.py lines 320-327; identical in apptest.py) -/

/-- `label_band(val, adm_thr, priority_thr, sector, equity_reserve,
equity_range)`: threshold / equity-band decision labeling. -/
def label_band (val adm_thr priority_thr : ℚ) (sector : String)
    (equity_reserve : Bool) (equity_range : ℚ × ℚ) : String :=
  if val ≥ priority_thr then "Priority"
  else if val ≥ adm_thr then "Admit"
  else if equity_reserve ∧ sector = "Farmer Org" ∧
      equity_range.1 ≤ val ∧ val ≤ equity_range.2 then "Reserve (Equity)"
  else "Reserve"

/-- Rank of a decision label: Priority > Admit > the two Reserve outcomes,
which are ranked equal (spec §8, Monotonicity). -/
def labelRank (label : String) : Nat :=
  if label = "Priority" then 3
  else if label = "Admit" then 2
  else 1

/-! ## `yes_no_points` (src/app.py lines 360-375 and src/apptest.py 216-220) -/

/-- Negative tokens of src/app.py. -/
def noPrefixes : List String := ["no", "none", "n/a", "na", "not applicable", "0"]

/-- Affirmative tokens of src/app.py. -/
def yesPrefixes : List String := ["yes", "y", "true", "1", "ja", "oui", "si"]

/-- A token matches in src/app.py when it is the whole text, or the text
starts with the token followed by a space or by a comma:
`text == p or text.startswith(p + " ") or text.startswith(p + ",")`. -/
def tokenMatch (p : String) (text : List Char) : Bool :=
  text == p.toList || startsWithL (p.toList ++ [' ']) text ||
    startsWithL (p.toList ++ [',']) text

/-- `yes_no_points(x, cap)` of src/app.py: free-text yes/no interpretation.
`none` models pandas `NaN` / `None`. -/
def yes_no_points (x : Option String) (cap : ℚ) : ℚ :=
  match x with
  | none => 0
  | some s =>
    let text := toLowerL (strip s.toList)
    if text = [] then 0
    else if noPrefixes.any (fun p => tokenMatch p text) then 0
    else if yesPrefixes.any (fun p => tokenMatch p text) then cap
    else cap

/-- `yes_no_points(x, cap)` of src/apptest.py: bare prefix match against the
negative table, no empty-text guard. -/
def yes_no_points_v31 (x : Option String) (cap : ℚ) : ℚ :=
  match x with
  | none => 0
  | some s =>
    let text := toLowerL (strip s.toList)
    if ["no", "none", "n/a", "0"].any (fun p => startsWithL p.toList text) then 0
    else cap

/-! ## `rubric_heuristic_score` (src/app.py lines 271-318) -/

/-- `rubric_heuristic_score(text, min_words, length_targets)`: heuristic
scoring of the motivation text along (specificity, feasibility, relevance),
each clamped to `[0, 10]`.  `none` models a non-string input. -/
def rubric_heuristic_score (text : Option String) (min_words : ℕ)
    (length_targets : ℕ × ℕ := (200, 300)) : ℕ × ℕ × ℕ :=
  match text with
  | none => (0, 0, 0)
  | some s =>
    if strip s.toList = [] then (0, 0, 0)
    else
      let t := strip s.toList
      let words := wordCount t
      if words < min_words then (0, 0, 0)
      else
        let tl := toLowerL t
        let has_numbers := hasNumbersRe t
        let has_when := anyKeyword ["week", "month", "timeline", "plan", "schedule"] tl
        let has_where := anyKeyword ["district", "province", "country", "region", "university", "ministry"] tl
        let has_data := anyKeyword ["data", "dataset", "dashboard", "faostat", "survey", "indicator"] tl
        let has_role := anyKeyword ["lecturer", "extension", "officer", "analyst", "programme", "policy"] tl
        let spec :=
          min ((if words ≥ length_targets.1 then 4 else 0) +
               (if words ≥ length_targets.2 then 2 else 0) +
               (if has_where || has_data then 3 else 0) +
               (if has_role then 1 else 0)) 10
        let feas :=
          min ((if has_numbers then 3 else 0) +
               (if has_when then 4 else 0) +
               (if containsSub "pilot".toList tl || containsSub "test".toList tl then 2 else 0) +
               (if containsSub "5–6 weeks".toList tl || containsSub "5-6 weeks".toList tl then 1 else 0)) 10
        let fs_keywords : List String :=
          ["food system", "seed", "agric", "market", "value chain", "policy",
           "extension", "nutrition", "farm"]
        let keyword_count := (fs_keywords.filter (fun k => containsSub k.toList tl)).length
        let rel :=
          min ((if keyword_count ≥ 2 then 4 else if keyword_count ≥ 1 then 2 else 0) +
               (if has_where then 3 else 0) +
               (if has_data then 2 else 0) +
               (if containsSub "student".toList tl || containsSub "farmer".toList tl then 1 else 0)) 10
        (spec, feas, rel)

/-! ## Band normalization and per-factor points (src/app.py lines 329-375,
660-715) -/

/-- `np.clip` / pandas `Series.clip(lower, upper)` semantics. -/
def clip (lo hi x : ℚ) : ℚ := min hi (max lo x)

/-- `WEEKLY_TIME_BANDS` of src/app.py line 242. -/
def WEEKLY_TIME_BANDS : List String :=
  ["<1h", "1–2h", "2–3h", "≥3h", "1-2h", "2-3h", ">=3h"]

/-- `LANG_BANDS` of src/app.py line 243. -/
def LANG_BANDS : List String := ["Basic/With support", "Working", "Fluent"]

/-- Character-level replacements of `normalize_time_value`: en/em dash to
`-`, `≥` to `>=`. -/
def replaceTimeChars (l : List Char) : List Char :=
  l.flatMap (fun c =>
    if c = '≥' then ['>', '=']
    else if c = '–' ∨ c = '—' then ['-'] else [c])

/-- `normalize_time_value(v)` (src/app.py lines 329-345): canonicalize a
weekly time band string; non-string input is returned unchanged (`none`). -/
def normalize_time_value (v : Option String) : Option String :=
  match v with
  | none => none
  | some s =>
    let x := replaceTimeChars (strip s.toList)
    let x_compact := (toLowerL x).filter (fun c => ¬ c.isWhitespace)
    if x_compact ∈ (["<1h", "<1hour", "<1hrs", "<1hr"].map String.toList) then some "<1h"
    else if x_compact ∈ (["1-2h", "1-2hours", "1-2hrs", "1-2hr"].map String.toList) then some "1-2h"
    else if x_compact ∈ (["2-3h", "2-3hours", "2-3hrs", "2-3hr"].map String.toList) then some "2-3h"
    else if x_compact ∈ ([">=3h", ">=3hours", ">=3hrs", ">=3hr"].map String.toList) then some ">=3h"
    else some (String.mk x)

/-- `map_band(val, valid)` (src/app.py lines 347-351): keep the stripped
value only when it is in the accepted list; otherwise `None`. -/
def map_band (val : Option String) (valid : List String) : Option String :=
  match val with
  | none => none
  | some s =>
    let v := String.mk (strip s.toList)
    if v ∈ valid then some v else none

/-- `get_time_points(x)` (src/app.py lines 353-358) applied to the mapped
band (`none` models Python `None`). -/
def get_time_points (x : Option String) : ℚ :=
  if x = some "≥3h" ∨ x = some ">=3h" then 10
  else if x = some "2–3h" ∨ x = some "2-3h" then 6
  else if x = some "1–2h" ∨ x = some "1-2h" then 3
  else if x = some "<1h" then 0
  else 0

/-- The `_time_points` column (src/app.py lines 702-704 and 711, 714):
normalize, validate against `WEEKLY_TIME_BANDS`, score, then
`np.minimum(·, w_time)`. -/
def timePoints (x : Option String) (w_time : ℚ) : ℚ :=
  min (get_time_points (map_band (normalize_time_value x) WEEKLY_TIME_BANDS)) w_time

/-- The `_lang_points` column (src/app.py lines 706-708 and 712, 715):
validate against `LANG_BANDS`, look up in the weight dictionary with
default 0, then `np.minimum(·, w_lang)`. -/
def langPoints (x : Option String) (w_lang : ℚ) : ℚ :=
  let band := map_band x LANG_BANDS
  let pts : ℚ :=
    if band = some "Fluent" then w_lang
    else if band = some "Working" then w_lang * (6/10)
    else if band = some "Basic/With support" then w_lang * (3/10)
    else 0
  min pts w_lang

/-- `function_points(x)` (src/app.py lines 677-694); `financePreset` models
`preset_choice == "finance_optimized"`. -/
def function_points (x : Option String) (w_function : ℚ)
    (financePreset : Bool) : ℚ :=
  match x with
  | none => 0
  | some s =>
    let xl := toLowerL s.toList
    let is_finance := anyKeyword ["finance", "financial", "accountant", "economist", "banking", "treasury", "audit"] xl
    let direct := anyKeyword ["lecturer", "extension", "analyst", "programme", "program officer", "policy", "teacher", "advisor", "manager", "director"] xl
    let indirect := anyKeyword ["assistant", "admin", "coordinator", "student", "intern"] xl
    if is_finance && financePreset then w_function
    else if direct then w_function
    else if indirect then w_function * (1/2)
    else 0

/-- `sector_points(s)` with the subsequent clip (src/app.py lines 660-664):
unknown sectors fall back to `Other/Unclassified` in the uplift lookup, and
the points are clipped to `[0, w_sector]`. -/
def sectorPoints (uplift : List (String × ℚ)) (s : String) (w_sector : ℚ) : ℚ :=
  let s_clean := if (uplift.lookup s).isSome then s else "Other/Unclassified"
  clip 0 w_sector ((uplift.lookup s_clean).getD 0)

/-- The `_mot_scaled` column (src/app.py lines 644-657): sum of the three
rubric dimensions, rescaled by `w_motivation / 30` and clipped to
`[0, w_motivation]`.  `motCell = none` covers both an unmapped motivation
column and a missing cell (both yield `_mot_total = 0`). -/
def motScaled (motCell : Option String) (min_words : ℕ) (w_motivation : ℚ) : ℚ :=
  let r := rubric_heuristic_score motCell min_words
  let mot_total : ℕ := r.1 + r.2.1 + r.2.2
  clip 0 w_motivation ((mot_total / 30 : ℚ) * w_motivation)

/-! ## Parameter sets and presets (src/app.py lines 152-240, 408-438) -/

/-- A fully-resolved parameter set: the tunable values a scoring run uses
(the fields of each entry of `PRESETS`).  Note there is no field naming a
designated equity sector: `label_band` hard-codes it. -/
structure Params where
  thresh_adm : ℚ
  thresh_priority : ℚ
  equity_lower : ℚ
  equity_upper : ℚ
  w_motivation : ℚ
  w_sector : ℚ
  w_referee : ℚ
  w_function : ℚ
  w_time : ℚ
  w_lang : ℚ
  w_alumni : ℚ
  min_motivation_words : ℕ
  sector_uplift : List (String × ℚ)
deriving Repr

/-- The `"balanced"` preset of src/app.py lines 153-173. -/
def balanced : Params where
  thresh_adm := 55
  thresh_priority := 70
  equity_lower := 45
  equity_upper := 54
  w_motivation := 30
  w_sector := 12
  w_referee := 28
  w_function := 15
  w_time := 10
  w_lang := 20
  w_alumni := 10
  min_motivation_words := 30
  sector_uplift :=
    [("Education", 12), ("NGO/CSO", 10), ("Government", 8), ("Multilateral", 8),
     ("Private", 8), ("Farmer Org", 0), ("Consultancy", 8), ("Finance", 8),
     ("Other/Unclassified", 0)]

/-! ## One scored record (src/app.py lines 611-731) -/

/-- The semantically interpreted cells of one (already deduplicated) row.
For the sector and organisation columns the outer `Option` is whether the
column is mapped at all; for the remaining columns an unmapped column and a
missing cell both score 0, so a single `Option` layer suffices. -/
structure Record where
  sectorCell : Option (Option String)
  orgCell : Option (Option String)
  motivation : Option String
  functionTitle : Option String
  timeBand : Option String
  language : Option String
  referee : Option String
  alumni : Option String

/-- The `_sector` column of a record. -/
def recSector (r : Record) : String := resolveSector r.sectorCell r.orgCell

/-- The seven SubScore columns, in the order of `rfs_cols`
(src/app.py line 718): motivation, sector, referee, function, time,
language, alumni. -/
def subScores (P : Params) (financePreset : Bool) (r : Record) : List ℚ :=
  [motScaled r.motivation P.min_motivation_words P.w_motivation,
   sectorPoints P.sector_uplift (recSector r) P.w_sector,
   yes_no_points r.referee P.w_referee,
   function_points r.functionTitle P.w_function financePreset,
   timePoints r.timeBand P.w_time,
   langPoints r.language P.w_lang,
   yes_no_points r.alumni P.w_alumni]

/-- Round to the nearest integer, ties to even: the rounding of
numpy / pandas `round` as used by `Series.round(2)`. -/
def roundHalfEven (q : ℚ) : ℤ :=
  if q - ⌊q⌋ < 1/2 then ⌊q⌋
  else if 1/2 < q - ⌊q⌋ then ⌊q⌋ + 1
  else if ⌊q⌋ % 2 = 0 then ⌊q⌋ else ⌊q⌋ + 1

/-- `Series.round(2)`: round to two decimal places. -/
def round2 (q : ℚ) : ℚ := (roundHalfEven (q * 100) : ℚ) / 100

/-- The `_RFS` column (src/app.py lines 718-719): unconditional sum of the
seven SubScores, rounded to two decimals. -/
def rfsOf (P : Params) (financePreset : Bool) (r : Record) : ℚ :=
  round2 (subScores P financePreset r).sum

/-- The `_label` column (src/app.py lines 721-731). -/
def labelOf (P : Params) (financePreset equity_on : Bool) (r : Record) : String :=
  label_band (rfsOf P financePreset r) P.thresh_adm P.thresh_priority
    (recSector r) equity_on (P.equity_lower, P.equity_upper)

/-- Sum of the seven weight caps of a parameter set. -/
def capSum (P : Params) : ℚ :=
  P.w_motivation + P.w_sector + P.w_referee + P.w_function + P.w_time +
    P.w_lang + P.w_alumni

/-! ## Deduplication (src/app.py lines 629-633)

A batch row is its PID, its parsed application date (`none` models both a
missing and an unparseable date: `pd.to_datetime(…, errors="coerce")`
yields `NaT`), and its original position `idx` standing for the payload. -/

structure Row where
  pid : String
  date : Option ℕ
  idx : ℕ
deriving DecidableEq, Repr

/-- Strict order on sort keys with missing dates greatest
(`sort_values` default `na_position="last"`). -/
def ltKey : Option ℕ → Option ℕ → Bool
  | some a, some b => a < b
  | some _, none => true
  | none, _ => false

/-- Non-strict sort order on rows: `keyRel a b` holds when `a`'s date is not
strictly after `b`'s under `ltKey` (missing dates greatest). -/
def keyRel (a b : Row) : Prop := ltKey b.date a.date = false

instance : DecidableRel keyRel := fun a b => by unfold keyRel; infer_instance

instance : IsTotal Row keyRel where
  total a b := by
    unfold keyRel ltKey
    rcases a.date with _ | x <;> rcases b.date with _ | y <;> simp <;> omega

instance : IsTrans Row keyRel where
  trans a b c hab hbc := by
    unfold keyRel ltKey at *
    rcases ha : a.date with _ | x <;> rcases hb : b.date with _ | y <;>
      rcases hc : c.date with _ | z <;> simp_all <;> omega

/-- Stable ascending sort by date, missing dates last:
`work.sort_values("_app_date")`. -/
def sortRows (rows : List Row) : List Row := List.insertionSort keyRel rows

/-- `drop_duplicates(subset=["PID"], keep="last")`: a row survives when no
later row carries the same PID. -/
def dedupKeepLast : List Row → List Row
  | [] => []
  | r :: rest =>
    if rest.any (fun s => s.pid == r.pid) then dedupKeepLast rest
    else r :: dedupKeepLast rest

/-- `drop_duplicates(subset=["PID"], keep="first")`: a row survives when its
PID was not seen earlier. -/
def dedupKeepFirstAux (seen : List String) : List Row → List Row
  | [] => []
  | r :: rest =>
    if r.pid ∈ seen then dedupKeepFirstAux seen rest
    else r :: dedupKeepFirstAux (r.pid :: seen) rest

/-- Dedup policy when no date column is mapped (src/app.py line 633). -/
def dedupNoDate (rows : List Row) : List Row := dedupKeepFirstAux [] rows

/-- Dedup policy when a date column is mapped (src/app.py lines 630-632):
sort by parsed date (missing last), then keep the last row per PID. -/
def dedupWithDate (rows : List Row) : List Row := dedupKeepLast (sortRows rows)

/-! ## Identity hashing (src/app.py lines 248-255, 619-626) -/

/-- `normalize_email(x)`: `""` for missing, else strip and lowercase. -/
def normalize_email (x : Option String) : String :=
  match x with
  | none => ""
  | some s => String.mk (toLowerL (strip s.toList))

/-- `hash_id(value)` with the salt explicit and the SHA-256 hex digest
abstracted as `sha256hex`: digest `salt + value`, keep the first 16
characters (`hashlib.sha256((SALT + value).encode()).hexdigest()[:16]`). -/
def hash_id (sha256hex : String → String) (salt value : String) : String :=
  String.mk ((sha256hex (salt ++ value)).toList.take 16)

/-- The spec's `hash_identifier(raw, salt)` (§4.1) as realized by the code:
`hash_id` applied to the normalized identifier (src/app.py lines 621-622). -/
def hash_identifier (sha256hex : String → String) (salt : String)
    (raw : Option String) : String :=
  hash_id sha256hex salt (normalize_email raw)

/-! ## Auxiliary definitions used in the statements of the theorems -/

/-- The decision labeler exactly as the spec states it (§4.6): a top-down,
first-match-wins cascade with a designated equity sector.  Written from the
spec's words, to be compared with `label_band`. -/
def labelerSpec (v : ℚ) (s : String) (adm pri lo hi : ℚ)
    (equityOn : Bool) (designated : String) : String :=
  if v ≥ pri then "Priority"
  else if v ≥ adm then "Admit"
  else if equityOn ∧ s = designated ∧ lo ≤ v ∧ v ≤ hi then "Reserve (Equity)"
  else "Reserve"

/-- The seven weight caps of a parameter set, in the order of `subScores`. -/
def capsOf (P : Params) : List ℚ :=
  [P.w_motivation, P.w_sector, P.w_referee, P.w_function, P.w_time,
   P.w_lang, P.w_alumni]

/-- A motivation text with 300 words hitting every rubric predicate:
290 filler words followed by keyword-bearing words. -/
def bigText : String :=
  String.intercalate " " (List.replicate 290 "x") ++
  " district data lecturer plan pilot seed farmer 5-6 weeks 7"

/-- A record that attains every weight cap of the `balanced` preset. -/
def maxRecord : Record where
  sectorCell := none
  orgCell := some (some "University of Nairobi")
  motivation := some bigText
  functionTitle := some "Lecturer"
  timeBand := some "≥3h"
  language := some "Fluent"
  referee := some "yes"
  alumni := some "yes"

/-- A record with short adversarial-ish inputs, used to witness the
weight-cap bounds at a concrete point. -/
def probeRecord : Record where
  sectorCell := some (some "Martian")
  orgCell := none
  motivation := some "Hello 123 !!"
  functionTitle := some "Intern"
  timeBand := some " 2—3 h "
  language := some "Working"
  referee := some "maybe later"
  alumni := some "No, sadly"

/-- A stand-in digest function used only to instantiate the abstract
`sha256hex` parameter at a concrete point: it has the 64-hex-character
output length of SHA-256. -/
def sha0 : String → String := fun _ => String.mk (List.replicate 64 'a')

/-! ## Helper lemmas: per-factor bounds -/

theorem clip_bounds (w x : ℚ) (hw : 0 ≤ w) : 0 ≤ clip 0 w x ∧ clip 0 w x ≤ w :=
  ⟨le_min hw (le_max_left 0 x), min_le_left w _⟩

theorem yes_no_points_bounds (x : Option String) (cap : ℚ) (h : 0 ≤ cap) :
    0 ≤ yes_no_points x cap ∧ yes_no_points x cap ≤ cap := by
  cases x with
  | none => exact ⟨le_rfl, h⟩
  | some s =>
    simp only [yes_no_points]
    split_ifs <;> first | exact ⟨le_rfl, h⟩ | exact ⟨h, le_rfl⟩

theorem function_points_bounds (x : Option String) (w : ℚ) (fp : Bool)
    (h : 0 ≤ w) : 0 ≤ function_points x w fp ∧ function_points x w fp ≤ w := by
  cases x with
  | none => exact ⟨le_rfl, h⟩
  | some s =>
    simp only [function_points]
    split_ifs <;>
      first
        | exact ⟨le_rfl, h⟩
        | exact ⟨h, le_rfl⟩
        | exact ⟨by positivity, by linarith⟩

theorem get_time_points_nonneg (x : Option String) : 0 ≤ get_time_points x := by
  simp only [get_time_points]
  split_ifs <;> norm_num

theorem timePoints_bounds (x : Option String) (w : ℚ) (h : 0 ≤ w) :
    0 ≤ timePoints x w ∧ timePoints x w ≤ w :=
  ⟨le_min (get_time_points_nonneg _) h, min_le_right _ _⟩

theorem langPoints_bounds (x : Option String) (w : ℚ) (h : 0 ≤ w) :
    0 ≤ langPoints x w ∧ langPoints x w ≤ w := by
  refine ⟨le_min ?_ h, min_le_right _ _⟩
  split_ifs <;> first | exact h | positivity | norm_num

theorem sectorPoints_bounds (u : List (String × ℚ)) (s : String) (w : ℚ)
    (h : 0 ≤ w) : 0 ≤ sectorPoints u s w ∧ sectorPoints u s w ≤ w :=
  clip_bounds w _ h

theorem motScaled_bounds (m : Option String) (mw : ℕ) (w : ℚ) (h : 0 ≤ w) :
    0 ≤ motScaled m mw w ∧ motScaled m mw w ≤ w :=
  clip_bounds w _ h

/-! ## Claim theorems -/

/-- Claim C1: the decision labeler evaluates top-down with first-match-wins
(Priority at the priority threshold, then Admit at the adm threshold, then
the equity rescue for the designated sector inside the inclusive band, then
Reserve) — `label_band` coincides with the spec's cascade `labelerSpec`
instantiated at the designated sector `"Farmer Org"`, and the Farmer Org
RFS-52 scenario under adm=60 / priority=70 / band [50,59] is labeled
`Reserve (Equity)` with equity enabled and `Reserve` with it disabled. -/
theorem C1_labeler_first_match :
    (∀ (v adm pri lo hi : ℚ) (s : String) (eq : Bool),
      label_band v adm pri s eq (lo, hi) = labelerSpec v s adm pri lo hi eq "Farmer Org")
    ∧ label_band 52 60 70 "Farmer Org" true (50, 59) = "Reserve (Equity)"
    ∧ label_band 52 60 70 "Farmer Org" false (50, 59) = "Reserve" :=
  ⟨fun _ _ _ _ _ _ _ => rfl, by decide, by decide⟩

/-- Claim C6: for a fixed sector and fixed configuration, a strictly larger
RFS value never receives a strictly lower-ranked label, under the ordering
Priority > Admit > Reserve (Equity) = Reserve. -/
theorem C6_label_monotonic (adm pri lo hi a b : ℚ) (s : String) (eq : Bool)
    (hab : b < a) :
    labelRank (label_band b adm pri s eq (lo, hi)) ≤
      labelRank (label_band a adm pri s eq (lo, hi)) := by
  unfold label_band
  split_ifs <;> first | decide | linarith

/-- Witness for C6 at a concrete point (RFS 68 vs 52, balanced thresholds). -/
theorem C6_label_monotonic_witness :
    labelRank (label_band 52 55 70 "Farmer Org" true (45, 54)) ≤
      labelRank (label_band 68 55 70 "Farmer Org" true (45, 54)) :=
  C6_label_monotonic 55 70 45 54 68 52 "Farmer Org" true (by norm_num)

/-- Claim C10: the labeler can return `"Reserve (Equity)"` only when the
record's sector is exactly the string `"Farmer Org"` — the designated equity
sector is hard-coded in `label_band` (no parameter of `label_band` and no
field of `Params` can redirect it), for every value, threshold configuration
and equity band. -/
theorem C10_equity_sector_fixed (val adm pri lo hi : ℚ) (s : String)
    (eq : Bool)
    (h : label_band val adm pri s eq (lo, hi) = "Reserve (Equity)") :
    s = "Farmer Org" := by
  unfold label_band at h
  split_ifs at h with h1 h2 h3
  · exact absurd h (by decide)
  · exact absurd h (by decide)
  · exact h3.2.1
  · exact absurd h (by decide)

/-- Witness for C10: the equity label is actually reachable, and the theorem
applies to it. -/
theorem C10_equity_sector_fixed_witness :
    ("Farmer Org" : String) = "Farmer Org" :=
  C10_equity_sector_fixed 52 60 70 50 59 "Farmer Org" true (by decide)

/-- Counterexample to claim C4: when a structured sector column is mapped,
an unknown non-missing value such as `"Martian"` is used verbatim — it is
NOT validated against the closed enumeration and does NOT fall back to
`Other/Unclassified` (src/app.py line 637 only does `fillna`). -/
theorem C4_counterexample :
    resolveSector (some (some "Martian")) none = "Martian" ∧
      "Martian" ∉ sectorEnum ∧
      resolveSector (some (some "Martian")) none ≠ "Other/Unclassified" := by
  decide

/-- Claim C4 (amended): the structured path replaces only missing cells by
`Other/Unclassified` and passes every present value through verbatim with no
validation; the free-text path (`org_to_sector`) is total onto the closed
enumeration, decides by an ordered first-match keyword list (text matching
both an earlier and a later category resolves to the earlier one, e.g.
`"university bank"` to Education not Finance), and maps empty or non-text
input to `Other/Unclassified`. -/
theorem C4_sector_resolution :
    (∀ (cell : Option String) (org : Option (Option String)),
      resolveSector (some cell) org = cell.getD "Other/Unclassified")
    ∧ (∀ org : Option String, org_to_sector org ∈ sectorEnum)
    ∧ org_to_sector (some "university bank") = "Education"
    ∧ org_to_sector (some "bank") = "Finance"
    ∧ org_to_sector none = "Other/Unclassified"
    ∧ org_to_sector (some "  ") = "Other/Unclassified" := by
  refine ⟨fun cell org => rfl, fun org => ?_, by decide, by decide, by decide, by decide⟩
  cases org with
  | none => decide
  | some s =>
    simp only [org_to_sector]
    split_ifs <;> decide

/-- Counterexample to claim C5: the negative table of src/app.py is NOT
matched by bare prefix — `"nothing"` starts with the negative token `"no"`,
yet `yes_no_points` scores it the full cap (a negative token only counts
when it is the whole text or is followed by a space or a comma). -/
theorem C5_counterexample :
    startsWithL "no".toList (toLowerL (strip "nothing".toList)) = true ∧
      yes_no_points (some "nothing") 7 = 7 ∧ (7 : ℚ) ≠ 0 := by
  decide

/-- Claim C5 (amended): `yes_no_points(raw, cap)` of src/app.py returns 0
for missing or (after trimming) empty input; returns 0 when the trimmed
lowercased text matches a negative token ("no", "none", "n/a", "na",
"not applicable", "0") as the whole text or followed by a space or comma
(so "no thanks" scores 0 but "nothing" does not match); and returns the
full cap for every other non-empty text, including free text that is no
explicit yes-token, such as a recommender's name.  The v3.1 variant in
src/apptest.py does use bare prefix match over ("no","none","n/a","0"),
and returns the cap (not 0) on empty non-missing text. -/
theorem C5_confirmation_asymmetry :
    (∀ cap : ℚ, yes_no_points none cap = 0)
    ∧ (∀ (s : String) (cap : ℚ), toLowerL (strip s.toList) = [] →
        yes_no_points (some s) cap = 0)
    ∧ (∀ (s : String) (cap : ℚ),
        noPrefixes.any (fun p => tokenMatch p (toLowerL (strip s.toList))) = true →
        yes_no_points (some s) cap = 0)
    ∧ (∀ (s : String) (cap : ℚ), toLowerL (strip s.toList) ≠ [] →
        noPrefixes.any (fun p => tokenMatch p (toLowerL (strip s.toList))) = false →
        yes_no_points (some s) cap = cap)
    ∧ (∀ cap : ℚ, yes_no_points (some "no thanks") cap = 0)
    ∧ (∀ cap : ℚ, yes_no_points (some "Jane Doe, jane@x.org") cap = cap)
    ∧ (∀ (s : String) (cap : ℚ),
        (["no", "none", "n/a", "0"].any
          (fun p => startsWithL p.toList (toLowerL (strip s.toList)))) = true →
        yes_no_points_v31 (some s) cap = 0)
    ∧ (∀ (s : String) (cap : ℚ),
        (["no", "none", "n/a", "0"].any
          (fun p => startsWithL p.toList (toLowerL (strip s.toList)))) = false →
        yes_no_points_v31 (some s) cap = cap)
    ∧ yes_no_points_v31 (some "") 7 = 7 := by
  refine ⟨fun cap => rfl, ?_, ?_, ?_, fun cap => rfl, fun cap => rfl, ?_, ?_, by decide⟩
  · intro s cap h
    simp only [String.toList] at h
    simp [yes_no_points, h]
  · intro s cap h
    by_cases he : toLowerL (strip s.toList) = []
    · simp only [String.toList] at he
      simp [yes_no_points, he]
    · simp only [yes_no_points]
      rw [if_neg he, if_pos h]
  · intro s cap he h
    simp only [yes_no_points]
    rw [if_neg he, if_neg (by rw [h]; decide), ite_self]
  · intro s cap h
    simp only [yes_no_points_v31]
    rw [if_pos h]
  · intro s cap h
    simp only [yes_no_points_v31]
    rw [if_neg (by rw [h]; decide)]

/-- Witness for C5 (amended) at concrete inputs: "No, sadly" scores 0 in
src/app.py, "Jane Doe" free text scores the cap, and "november" scores 0
under the bare-prefix rule of src/apptest.py. -/
theorem C5_confirmation_asymmetry_witness :
    yes_no_points (some "No, sadly") 9 = 0 ∧
      yes_no_points (some "Jane Doe") 9 = 9 ∧
      yes_no_points_v31 (some "november") 9 = 0 :=
  ⟨C5_confirmation_asymmetry.2.2.1 "No, sadly" 9 (by decide),
   C5_confirmation_asymmetry.2.2.2.1 "Jane Doe" 9 (by decide) (by decide),
   C5_confirmation_asymmetry.2.2.2.2.2.2.1 "november" 9 (by decide)⟩

/-- Claim C8: the rubric scorer is a hard cliff — for missing/non-text
input, for text that trims to empty, and for every text whose word count is
strictly below `min_words`, all three rubric dimensions are 0 regardless of
keyword content, for every length-target configuration. -/
theorem C8_rubric_gate :
    (∀ (mw : ℕ) (lt : ℕ × ℕ), rubric_heuristic_score none mw lt = (0, 0, 0))
    ∧ (∀ (s : String) (mw : ℕ) (lt : ℕ × ℕ), strip s.toList = [] →
        rubric_heuristic_score (some s) mw lt = (0, 0, 0))
    ∧ (∀ (s : String) (mw : ℕ) (lt : ℕ × ℕ),
        wordCount (strip s.toList) < mw →
        rubric_heuristic_score (some s) mw lt = (0, 0, 0)) := by
  refine ⟨fun mw lt => rfl, ?_, ?_⟩
  · intro s mw lt h
    simp only [String.toList] at h
    simp [rubric_heuristic_score, h]
  · intro s mw lt h
    by_cases he : strip s.toList = []
    · simp only [String.toList] at he
      simp [rubric_heuristic_score, he]
    · simp only [rubric_heuristic_score]
      rw [if_neg he, if_pos h]

/-- Witness for C8: a 4-word keyword-laden text below a 30-word minimum
scores (0,0,0). -/
theorem C8_rubric_gate_witness :
    rubric_heuristic_score (some "seed farmer data district") 30 (200, 300) =
      (0, 0, 0) :=
  C8_rubric_gate.2.2 "seed farmer data district" 30 (200, 300) (by decide)

/-- Claim C2: every one of the seven SubScores (motivation, sector, referee,
function, time, language, alumni — the order of `subScores`) lies in
`[0, w]` where `w` is the corresponding weight cap of the active parameter
set, for every record (including adversarial text) and every parameter set
with nonnegative caps (the UI only offers nonnegative caps). -/
theorem C2_subscore_caps (P : Params) (fp : Bool) (r : Record)
    (h : ∀ w ∈ capsOf P, 0 ≤ w) :
    List.Forall₂ (fun q w => 0 ≤ q ∧ q ≤ w) (subScores P fp r) (capsOf P) := by
  have hm := h P.w_motivation (by simp [capsOf])
  have hs := h P.w_sector (by simp [capsOf])
  have hr := h P.w_referee (by simp [capsOf])
  have hf := h P.w_function (by simp [capsOf])
  have ht := h P.w_time (by simp [capsOf])
  have hl := h P.w_lang (by simp [capsOf])
  have ha := h P.w_alumni (by simp [capsOf])
  simp only [subScores, capsOf, List.forall₂_cons, List.forall₂_nil_left_iff]
  exact ⟨motScaled_bounds _ _ _ hm, sectorPoints_bounds _ _ _ hs,
    yes_no_points_bounds _ _ hr, function_points_bounds _ _ _ hf,
    timePoints_bounds _ _ ht, langPoints_bounds _ _ hl,
    yes_no_points_bounds _ _ ha, trivial⟩

/-- Witness for C2 at the balanced preset and a record with adversarial-ish
values (unknown structured sector, symbols in the motivation, negative and
free-text confirmations). -/
theorem C2_subscore_caps_witness :
    List.Forall₂ (fun q w => 0 ≤ q ∧ q ≤ w)
      (subScores balanced false probeRecord) (capsOf balanced) :=
  C2_subscore_caps balanced false probeRecord (by decide)

/-- Claim C3: `hash_identifier` normalizes its input (missing is accepted
and treated exactly as the empty string; present input is trimmed of
surrounding whitespace and case-folded to lowercase), concatenates the salt
with the normalized input, feeds the concatenation to the digest function,
and truncates the hexadecimal digest to its 16-character prefix; it is a
pure function, so equal salt and equal normalized identifier always give
the identical PID, and — with any digest producing 64 hex characters, as
SHA-256 does — the PID has exactly 16 characters. -/
theorem C3_hash_identifier :
    (∀ (sha : String → String) (salt : String),
      hash_identifier sha salt none = hash_identifier sha salt (some ""))
    ∧ (∀ (sha : String → String) (salt : String) (raw : Option String),
      hash_identifier sha salt raw =
        String.mk ((sha (salt ++ normalize_email raw)).toList.take 16))
    ∧ (∀ (sha : String → String) (salt : String) (r₁ r₂ : Option String),
      normalize_email r₁ = normalize_email r₂ →
      hash_identifier sha salt r₁ = hash_identifier sha salt r₂)
    ∧ (∀ s : String, normalize_email (some s) = String.mk (toLowerL (strip s.toList)))
    ∧ (∀ (sha : String → String) (salt : String) (raw : Option String),
      (∀ t, (sha t).length = 64) → (hash_identifier sha salt raw).length = 16) := by
  refine ⟨?_, fun sha salt raw => rfl, ?_, fun s => rfl, ?_⟩
  · intro sha salt
    unfold hash_identifier
    rw [show normalize_email none = normalize_email (some "") from by decide]
  · intro sha salt r₁ r₂ h
    unfold hash_identifier
    rw [h]
  · intro sha salt raw h
    have h2 := h (salt ++ normalize_email raw)
    simp only [String.length] at h2 ⊢
    simp [hash_identifier, hash_id, String.toList, List.length_take, h2]

/-- Witness for C3: trimming and case only change nothing (PID of " AbC "
equals PID of "abc"), and the PID is 16 characters long, at the stand-in
digest `sha0`. -/
theorem C3_hash_identifier_witness :
    hash_identifier sha0 "pepper" (some " AbC ") =
        hash_identifier sha0 "pepper" (some "abc")
      ∧ (hash_identifier sha0 "pepper" (some "x")).length = 16 :=
  ⟨C3_hash_identifier.2.2.1 sha0 "pepper" (some " AbC ") (some "abc") (by decide),
   C3_hash_identifier.2.2.2.2 sha0 "pepper" (some "x")
     (fun t => by simp [sha0, String.length])⟩

/-- Half-even rounding never exceeds the ceiling. -/
theorem roundHalfEven_le_ceil (q : ℚ) : roundHalfEven q ≤ ⌈q⌉ := by
  have hc : ⌊q⌋ ≤ ⌈q⌉ := Int.floor_le_ceil q
  have hfl : (⌊q⌋ : ℚ) ≤ q := Int.floor_le q
  unfold roundHalfEven
  split_ifs with h1 h2 h3
  · exact hc
  · have hq : (⌊q⌋ : ℚ) < q := by linarith
    have := Int.lt_ceil.mpr hq
    omega
  · exact hc
  · have hr : (1 : ℚ)/2 ≤ q - ⌊q⌋ := not_lt.mp h1
    have hq : (⌊q⌋ : ℚ) < q := by linarith
    have := Int.lt_ceil.mpr hq
    omega

/-- Rounding to two decimals respects an integer upper bound. -/
theorem round2_le_int (q : ℚ) (n : ℤ) (h : q ≤ (n : ℚ)) : round2 q ≤ (n : ℚ) := by
  have h1 : q * 100 ≤ ((n * 100 : ℤ) : ℚ) := by push_cast; linarith
  have h2 : roundHalfEven (q * 100) ≤ n * 100 := by
    calc roundHalfEven (q * 100) ≤ ⌈q * 100⌉ := roundHalfEven_le_ceil _
    _ ≤ ⌈((n * 100 : ℤ) : ℚ)⌉ := Int.ceil_mono h1
    _ = n * 100 := Int.ceil_intCast _
  have h3 : ((roundHalfEven (q * 100) : ℤ) : ℚ) ≤ (n : ℚ) * 100 := by
    push_cast at h2 ⊢
    exact_mod_cast h2
  unfold round2
  linarith

/-- Rounding an integer to two decimals returns it unchanged. -/
theorem round2_intCast (n : ℤ) : round2 ((n : ℤ) : ℚ) = n := by
  have h1 : ((n : ℤ) : ℚ) * 100 = ((n * 100 : ℤ) : ℚ) := by push_cast; ring
  unfold round2 roundHalfEven
  rw [h1, Int.floor_intCast, sub_self, if_pos (by norm_num)]
  push_cast
  field_simp

/-- The sum of the seven SubScores never exceeds the sum of the caps. -/
theorem subScores_sum_le (P : Params) (fp : Bool) (r : Record)
    (h : ∀ w ∈ capsOf P, 0 ≤ w) : (subScores P fp r).sum ≤ capSum P := by
  have h1 := (motScaled_bounds r.motivation P.min_motivation_words P.w_motivation
    (h P.w_motivation (by simp [capsOf]))).2
  have h2 := (sectorPoints_bounds P.sector_uplift (recSector r) P.w_sector
    (h P.w_sector (by simp [capsOf]))).2
  have h3 := (yes_no_points_bounds r.referee P.w_referee
    (h P.w_referee (by simp [capsOf]))).2
  have h4 := (function_points_bounds r.functionTitle P.w_function fp
    (h P.w_function (by simp [capsOf]))).2
  have h5 := (timePoints_bounds r.timeBand P.w_time
    (h P.w_time (by simp [capsOf]))).2
  have h6 := (langPoints_bounds r.language P.w_lang
    (h P.w_lang (by simp [capsOf]))).2
  have h7 := (yes_no_points_bounds r.alumni P.w_alumni
    (h P.w_alumni (by simp [capsOf]))).2
  simp only [subScores, capSum, List.sum_cons, List.sum_nil]
  linarith

/-- Claim C9: the RFS of a record is the unconditional sum of its seven
SubScores rounded to two decimal places; it is never normalized to a 0-100
range — for integer-valued nonnegative caps it is bounded by the sum of the
caps, and under the balanced preset that maximum, 125 > 100, is actually
attained by a concrete record (`maxRecord`). -/
theorem C9_rfs_is_rounded_sum :
    (∀ (P : Params) (fp : Bool) (r : Record),
      rfsOf P fp r = round2 (subScores P fp r).sum)
    ∧ (∀ (P : Params) (fp : Bool) (r : Record) (n : ℤ),
      (∀ w ∈ capsOf P, 0 ≤ w) → capSum P = (n : ℚ) →
      rfsOf P fp r ≤ capSum P)
    ∧ rfsOf balanced false maxRecord = 125
    ∧ capSum balanced = 125
    ∧ (100 : ℚ) < 125 := by
  refine ⟨fun P fp r => rfl, ?_, ?_, by norm_num [capSum, balanced], by norm_num⟩
  · intro P fp r n hw hn
    have hs := subScores_sum_le P fp r hw
    have h2 := round2_le_int ((subScores P fp r).sum) n (by rw [← hn]; exact hs)
    rw [hn]
    exact h2
  · have hsec : recSector maxRecord = "Education" := by decide
    have h1 : motScaled (some bigText) balanced.min_motivation_words
        balanced.w_motivation = 30 := by
      set_option maxRecDepth 1000000 in
      have hrub : rubric_heuristic_score (some bigText) 30 = (10, 10, 10) := by decide
      simp only [balanced] at hrub ⊢
      simp [motScaled, hrub, clip]
    have h2 : sectorPoints balanced.sector_uplift "Education" balanced.w_sector = 12 := by
      simp [sectorPoints, balanced, List.lookup, clip]
    have h3 : yes_no_points (some "yes") balanced.w_referee = 28 := by
      simp only [yes_no_points]
      rw [if_neg (by decide), if_neg (by decide), if_pos (by decide)]
      rfl
    have h4 : function_points (some "Lecturer") balanced.w_function false = 15 := by
      simp only [function_points]
      rw [if_neg (by decide), if_pos (by decide)]
      rfl
    have h5 : timePoints (some "≥3h") balanced.w_time = 10 := by
      have hb : map_band (normalize_time_value (some "≥3h")) WEEKLY_TIME_BANDS =
          some ">=3h" := by decide
      simp [timePoints, hb, get_time_points, balanced]
    have h6 : langPoints (some "Fluent") balanced.w_lang = 20 := by
      have hb : map_band (some "Fluent") LANG_BANDS = some "Fluent" := by decide
      simp [langPoints, hb, balanced]
    have h7 : yes_no_points (some "yes") balanced.w_alumni = 10 := by
      simp only [yes_no_points]
      rw [if_neg (by decide), if_neg (by decide), if_pos (by decide)]
      rfl
    have pm : maxRecord.motivation = some bigText := rfl
    have pf : maxRecord.functionTitle = some "Lecturer" := rfl
    have pt : maxRecord.timeBand = some "≥3h" := rfl
    have pl : maxRecord.language = some "Fluent" := rfl
    have pr : maxRecord.referee = some "yes" := rfl
    have pa : maxRecord.alumni = some "yes" := rfl
    have hsub : subScores balanced false maxRecord = [30, 12, 28, 15, 10, 20, 10] := by
      simp only [subScores, pm, pf, pt, pl, pr, pa, hsec]
      rw [h1, h2, h3, h4, h5, h6, h7]
    have hsum : (subScores balanced false maxRecord).sum = ((125 : ℤ) : ℚ) := by
      rw [hsub]; norm_num
    show round2 (subScores balanced false maxRecord).sum = 125
    rw [hsum, round2_intCast]
    norm_num

/-- Witness for C9: the cap-sum upper bound applied at the balanced preset
and the probe record. -/
theorem C9_rfs_is_rounded_sum_witness :
    rfsOf balanced false probeRecord ≤ capSum balanced :=
  C9_rfs_is_rounded_sum.2.1 balanced false probeRecord 125 (by decide)
    (by norm_num [capSum, balanced])

/-! ## Helper lemmas: deduplication -/

/-- Keys are irreflexive under `ltKey`. -/
theorem keyRel_refl (a : Row) : keyRel a a := by
  unfold keyRel ltKey
  cases a.date <;> simp

/-- Rows surviving keep-last dedup come from the input. -/
theorem mem_of_mem_dedupKeepLast {r : Row} :
    ∀ {l : List Row}, r ∈ dedupKeepLast l → r ∈ l := by
  intro l
  induction l with
  | nil => simp [dedupKeepLast]
  | cons x rest ih =>
    simp only [dedupKeepLast]
    split_ifs with h
    · intro hr
      exact List.mem_cons_of_mem _ (ih hr)
    · intro hr
      rcases List.mem_cons.mp hr with h1 | h2
      · exact h1 ▸ List.mem_cons_self _ _
      · exact List.mem_cons_of_mem _ (ih h2)

/-- A PID absent from the input is absent from the keep-last output. -/
theorem countP_dedupKeepLast_zero (pid : String) (l : List Row)
    (hl : pid ∉ l.map Row.pid) :
    (dedupKeepLast l).countP (fun s => s.pid == pid) = 0 := by
  rw [List.countP_eq_zero]
  intro s hs
  have hmem : s.pid ∈ l.map Row.pid :=
    List.mem_map_of_mem _ (mem_of_mem_dedupKeepLast hs)
  simp only [beq_iff_eq]
  intro heq
  exact hl (heq ▸ hmem)

/-- Keep-last dedup leaves exactly one row per PID present in the input. -/
theorem countP_dedupKeepLast_one (pid : String) :
    ∀ l : List Row, pid ∈ l.map Row.pid →
      (dedupKeepLast l).countP (fun s => s.pid == pid) = 1 := by
  intro l
  induction l with
  | nil => simp
  | cons x rest ih =>
    intro hmem
    simp only [dedupKeepLast]
    split_ifs with h
    · apply ih
      rcases List.mem_cons.mp hmem with h1 | h2
      · obtain ⟨s, hs, hsp⟩ := List.any_eq_true.mp h
        subst h1
        exact List.mem_map.mpr ⟨s, hs, beq_iff_eq.mp hsp⟩
      · exact h2
    · rw [List.countP_cons]
      by_cases hx : x.pid = pid
      · have h0 : (dedupKeepLast rest).countP (fun s => s.pid == pid) = 0 := by
          apply countP_dedupKeepLast_zero
          intro hin
          obtain ⟨s, hs, hsp⟩ := List.mem_map.mp hin
          exact h (List.any_eq_true.mpr ⟨s, hs, beq_iff_eq.mpr (by rw [hsp, hx])⟩)
        simp [h0, hx]
      · have hr : pid ∈ rest.map Row.pid := by
          rcases List.mem_cons.mp hmem with h1 | h2
          · exact absurd h1.symm hx
          · exact h2
        simp [ih hr, hx]

/-- PIDs already seen contribute nothing to keep-first dedup. -/
theorem countP_dedupKeepFirstAux_of_seen (pid : String) :
    ∀ (l : List Row) (seen : List String), pid ∈ seen →
      (dedupKeepFirstAux seen l).countP (fun s => s.pid == pid) = 0 := by
  intro l
  induction l with
  | nil => intro seen _; simp [dedupKeepFirstAux]
  | cons x rest ih =>
    intro seen h
    simp only [dedupKeepFirstAux]
    split_ifs with hx
    · exact ih seen h
    · rw [List.countP_cons]
      have hxp : ¬ x.pid = pid := fun he => hx (he ▸ h)
      simp [ih (x.pid :: seen) (List.mem_cons_of_mem _ h), hxp]

/-- A PID absent from the input is absent from the keep-first output. -/
theorem countP_dedupKeepFirstAux_zero (pid : String) :
    ∀ (l : List Row) (seen : List String), pid ∉ l.map Row.pid →
      (dedupKeepFirstAux seen l).countP (fun s => s.pid == pid) = 0 := by
  intro l
  induction l with
  | nil => intro seen _; simp [dedupKeepFirstAux]
  | cons x rest ih =>
    intro seen h
    have hxp : ¬ x.pid = pid := fun he => h (by simp [← he])
    have hrest : pid ∉ rest.map Row.pid := fun hin => h (by simp [hin])
    simp only [dedupKeepFirstAux]
    split_ifs with hx
    · exact ih seen hrest
    · rw [List.countP_cons]
      simp [ih (x.pid :: seen) hrest, hxp]

/-- Keep-first dedup leaves exactly one row per unseen PID in the input. -/
theorem countP_dedupKeepFirstAux_one (pid : String) :
    ∀ (l : List Row) (seen : List String), pid ∉ seen → pid ∈ l.map Row.pid →
      (dedupKeepFirstAux seen l).countP (fun s => s.pid == pid) = 1 := by
  intro l
  induction l with
  | nil => simp
  | cons x rest ih =>
    intro seen hseen hmem
    simp only [dedupKeepFirstAux]
    split_ifs with hx
    · have hxp : ¬ x.pid = pid := fun he => hseen (he ▸ hx)
      have hr : pid ∈ rest.map Row.pid := by
        rcases List.mem_cons.mp hmem with h1 | h2
        · exact absurd h1.symm hxp
        · exact h2
      exact ih seen hseen hr
    · rw [List.countP_cons]
      by_cases hxp : x.pid = pid
      · have h0 := countP_dedupKeepFirstAux_of_seen pid rest (pid :: seen)
          (by simp)
        simp [hxp, h0]
      · have hr : pid ∈ rest.map Row.pid := by
          rcases List.mem_cons.mp hmem with h1 | h2
          · exact absurd h1.symm hxp
          · exact h2
        have hseen2 : pid ∉ x.pid :: seen := by
          simp only [List.mem_cons]
          rintro (h1 | h2)
          · exact hxp h1.symm
          · exact hseen h2
        simp [ih (x.pid :: seen) hseen2 hr, hxp]

/-- In a sorted list, the keep-last survivor of a PID has a key at least as
large as every row of that PID. -/
theorem dedupKeepLast_max :
    ∀ l : List Row, l.Sorted keyRel → ∀ r ∈ dedupKeepLast l, ∀ s ∈ l,
      s.pid = r.pid → keyRel s r := by
  intro l
  induction l with
  | nil => simp
  | cons x rest ih =>
    intro hsort r hr s hs hsp
    have hsort' : rest.Sorted keyRel := hsort.of_cons
    have hx : ∀ t ∈ rest, keyRel x t := List.rel_of_sorted_cons hsort
    simp only [dedupKeepLast] at hr
    split_ifs at hr with hdup
    · rcases List.mem_cons.mp hs with h1 | h2
      · subst h1
        exact hx r (mem_of_mem_dedupKeepLast hr)
      · exact ih hsort' r hr s h2 hsp
    · rcases List.mem_cons.mp hr with h1 | h2
      · subst h1
        rcases List.mem_cons.mp hs with hs1 | hs2
        · subst hs1; exact keyRel_refl s
        · refine absurd ?_ hdup
          exact List.any_eq_true.mpr ⟨s, hs2, beq_iff_eq.mpr hsp⟩
      · rcases List.mem_cons.mp hs with hs1 | hs2
        · subst hs1
          exact hx r (mem_of_mem_dedupKeepLast h2)
        · exact ih hsort' r h2 s hs2 hsp

/-- Counterexample to claim C7: two rows share a PID, row 0 carries the
(only) parseable date and row 1 an unparseable one — yet date-aware dedup
keeps row 1, not "the one with the later parseable date": `NaT` sorts after
every real date (`na_position="last"`) and `keep="last"` then prefers it. -/
theorem C7_counterexample :
    dedupWithDate [⟨"p", some 5, 0⟩, ⟨"p", none, 1⟩] = [⟨"p", none, 1⟩] ∧
      (⟨"p", none, 1⟩ : Row) ≠ ⟨"p", some 5, 0⟩ := by
  constructor
  · rfl
  · decide

/-- Claim C7 (amended): deduplication leaves exactly one output row per
distinct input PID under both policies.  With a date column mapped, the
kept row of a PID has a maximal date key under the order that places
missing/unparseable dates after all parseable ones — so of two rows with
parseable dates the later-dated one is kept (in either input order), but a
row whose date fails to parse is kept in preference to a dated one.  With
no date column mapped, the first-encountered row of each PID is kept. -/
theorem C7_dedup_policy :
    (∀ (rows : List Row) (pid : String), pid ∈ rows.map Row.pid →
      (dedupWithDate rows).countP (fun s => s.pid == pid) = 1)
    ∧ (∀ (rows : List Row) (pid : String), pid ∈ rows.map Row.pid →
      (dedupNoDate rows).countP (fun s => s.pid == pid) = 1)
    ∧ (∀ rows : List Row, ∀ r ∈ dedupWithDate rows, ∀ s ∈ rows,
      s.pid = r.pid → ltKey r.date s.date = false)
    ∧ (∀ (p : String) (d₁ d₂ i j : ℕ), d₁ < d₂ →
      dedupWithDate [⟨p, some d₁, i⟩, ⟨p, some d₂, j⟩] = [⟨p, some d₂, j⟩]
      ∧ dedupWithDate [⟨p, some d₂, j⟩, ⟨p, some d₁, i⟩] = [⟨p, some d₂, j⟩])
    ∧ (∀ (p : String) (d₁ d₂ : Option ℕ) (i j : ℕ),
      dedupNoDate [⟨p, d₁, i⟩, ⟨p, d₂, j⟩] = [⟨p, d₁, i⟩]) := by
  refine ⟨?_, ?_, ?_, ?_, ?_⟩
  · intro rows pid hmem
    apply countP_dedupKeepLast_one
    have hperm := (List.perm_insertionSort keyRel rows).map Row.pid
    exact hperm.mem_iff.mpr hmem
  · intro rows pid hmem
    exact countP_dedupKeepFirstAux_one pid rows [] (by simp) hmem
  · intro rows r hr s hs hsp
    have hsorted : (sortRows rows).Sorted keyRel :=
      List.sorted_insertionSort keyRel rows
    have hs2 : s ∈ sortRows rows :=
      (List.perm_insertionSort keyRel rows).mem_iff.mpr hs
    exact dedupKeepLast_max (sortRows rows) hsorted r hr s hs2 hsp
  · intro p d₁ d₂ i j h
    have h21 : ltKey (some d₂) (some d₁) = false := by
      simp [ltKey]
      omega
    have h12 : ltKey (some d₁) (some d₂) = true := by
      simp [ltKey]
      omega
    constructor <;>
      simp [dedupWithDate, sortRows, List.insertionSort, List.orderedInsert,
        dedupKeepLast, keyRel, h21, h12]
  · intro p d₁ d₂ i j
    simp [dedupNoDate, dedupKeepFirstAux]

/-- Witness for C7 (amended) at concrete rows: dates 2024-01-01 < 2024-06-01
modelled as keys 1 < 6 — the later-dated row is kept and the PID count in
the output is exactly 1. -/
theorem C7_dedup_policy_witness :
    (dedupWithDate [⟨"p", some 1, 0⟩, ⟨"p", some 6, 1⟩]).countP
        (fun s => s.pid == "p") = 1
      ∧ dedupWithDate [⟨"p", some 1, 0⟩, ⟨"p", some 6, 1⟩] = [⟨"p", some 6, 1⟩]
      ∧ dedupNoDate [⟨"q", some 1, 0⟩, ⟨"q", some 6, 1⟩] = [⟨"q", some 1, 0⟩] :=
  ⟨C7_dedup_policy.1 [⟨"p", some 1, 0⟩, ⟨"p", some 6, 1⟩] "p" (by simp),
   (C7_dedup_policy.2.2.2.1 "p" 1 6 0 1 (by norm_num)).1,
   C7_dedup_policy.2.2.2.2 "q" (some 1) (some 6) 0 1⟩

end RFS
